import Mathlib

/-!
# Verification of the mobile-robot-controller firmware and clients

Shallow embedding of the command protocol, authentication/heartbeat state
machine, mecanum kinematics, and arm motion controller of the
`mobile-robot-controller` repository, together with proofs of the spec's
claims about them.

The embedding covers:
* `BaseWS` — the WebSocket mecanum base firmware (`esp32_base.ino`, WS half);
* `ArmWS` — the WebSocket arm firmware (the unnamed WS arm sketch);
* `BaseBLE` — the BLE mecanum base firmware (`esp32_base.ino`, BLE half);
* `ArmBLE` — the BLE arm firmware (`esp32_arm.ino`);
* `JoyDoc` — the angle/distance kinematics documented in
  `JOYSTICK_EXPLANATION.md` (`handleJoystickMove`);
* `ArmUI` — the homing / manual arm control loop of the dual-joystick client.
-/

/-- Arduino `constrain(amt, low, high)`. -/
def constrain (amt low high : ℤ) : ℤ :=
  if amt < low then low else if amt > high then high else amt

/-- Arduino `map(x, 0, 100, 0, 255)` for the PWM rescale in `setMotorSpeed`
(C integer division; all operands nonnegative on every call site). -/
def mapPwm (x : ℤ) : ℤ := x * 255 / 100

/-- C `round` on rationals: round half away from zero. -/
def cround (x : ℚ) : ℤ := if 0 ≤ x then ⌊x + 1/2⌋ else -⌊-x + 1/2⌋

/-- Replies a firmware can send on its session. -/
inductive Reply where
  | authOk
  | authFail
  | notAuthenticated
  | pong
  | ok
  | errorInvalidFormat
  | stopped
  | unknownCommand
deriving Repr, DecidableEq

/-- Output state of one H-bridge motor channel: the two direction pins and
the PWM duty on the enable pin. -/
structure MotorOut where
  in1 : Bool
  in2 : Bool
  pwm : ℤ
deriving Repr, DecidableEq

/-- A fully stopped motor channel: both direction pins LOW, zero PWM. -/
def MotorOut.stopped : MotorOut := ⟨false, false, 0⟩

/-- Arduino `String.startsWith`, on the character sequence of the text. -/
def strStarts (msg pre : String) : Bool := pre.data.isPrefixOf msg.data

/-! ## Integer scanning (model of `sscanf` `%d` conversions)

`sscanf(msg, "MECANUM %d %d %d %d", ...)` performs up to four `%d`
conversions after the literal prefix and returns the number that
succeeded.  A `%d` conversion skips whitespace, accepts an optional sign
and then requires at least one digit. -/

/-- Skip leading whitespace, as a `%d` conversion does. -/
def skipWs : List Char → List Char
  | c :: cs => if c.isWhitespace then skipWs cs else c :: cs
  | [] => []

/-- Numeric value of a digit run, accumulating left to right. -/
def digitsVal (acc : ℕ) : List Char → ℕ
  | c :: cs => if c.isDigit then digitsVal (acc * 10 + (c.toNat - '0'.toNat)) cs else acc
  | [] => acc

/-- One `%d` conversion: whitespace, optional sign, at least one digit.
Returns the parsed integer and the unconsumed input, or `none` on failure. -/
def scanInt? (cs : List Char) : Option (ℤ × List Char) :=
  let cs1 := skipWs cs
  match cs1 with
  | '-' :: rest =>
      let ds := rest.takeWhile Char.isDigit
      if ds.isEmpty then none
      else some (-(digitsVal 0 ds : ℤ), rest.dropWhile Char.isDigit)
  | '+' :: rest =>
      let ds := rest.takeWhile Char.isDigit
      if ds.isEmpty then none
      else some ((digitsVal 0 ds : ℤ), rest.dropWhile Char.isDigit)
  | _ =>
      let ds := cs1.takeWhile Char.isDigit
      if ds.isEmpty then none
      else some ((digitsVal 0 ds : ℤ), cs1.dropWhile Char.isDigit)

/-- Up to `n` successive `%d` conversions; stops at the first failure.
The list of successfully converted integers is returned, so its length is
the `sscanf` return value. -/
def scanInts : ℕ → List Char → List ℤ
  | 0, _ => []
  | n + 1, cs =>
    match scanInt? cs with
    | none => []
    | some (v, rest) => v :: scanInts n rest

namespace BaseWS

/-- The shared secret `authToken` of the WebSocket firmwares. -/
def authToken : String := "mysecret"

/-- `PING_TIMEOUT` (ms). -/
def PING_TIMEOUT : ℕ := 10000

/-- Global state of the WebSocket mecanum base firmware: the
`authenticated` flag, `lastPing`, and the four motor output channels. -/
structure State where
  authenticated : Bool
  lastPing : ℕ
  m1 : MotorOut
  m2 : MotorOut
  m3 : MotorOut
  m4 : MotorOut
deriving Repr, DecidableEq

/-- `setMotorSpeed`: clamp the speed to [-100, 100], set the direction
pins from its sign, and set PWM to `map(abs(speed), 0, 100, 0, 255)`. -/
def setMotorSpeed (speed : ℤ) : MotorOut :=
  let s := constrain speed (-100) 100
  if s > 0 then ⟨true, false, mapPwm s.natAbs⟩
  else if s < 0 then ⟨false, true, mapPwm s.natAbs⟩
  else ⟨false, false, mapPwm s.natAbs⟩

/-- `stopAllMotors`: zero PWM and both direction pins LOW on all four. -/
def stopAllMotors (s : State) : State :=
  { s with m1 := .stopped, m2 := .stopped, m3 := .stopped, m4 := .stopped }

/-- The `WStype_TEXT` branch of `webSocketEvent`: AUTH handshake first,
then the authentication gate, then PING / MECANUM / STOP dispatch.
`now` is the value of `millis()`. -/
def handleText (s : State) (now : ℕ) (msg : String) : State × Reply :=
  if strStarts msg "AUTH:" then
    if msg.data.drop 5 = authToken.data then
      ({ s with authenticated := true, lastPing := now }, .authOk)
    else (s, .authFail)
  else if s.authenticated = false then (s, .notAuthenticated)
  else if msg.data = "PING".data then ({ s with lastPing := now }, .pong)
  else if strStarts msg "MECANUM " then
    match scanInts 4 (msg.data.drop 7) with
    | [fl, fr, rl, rr] =>
      ({ s with m1 := setMotorSpeed fl, m2 := setMotorSpeed fr,
                m3 := setMotorSpeed rl, m4 := setMotorSpeed rr }, .ok)
    | _ => (s, .errorInvalidFormat)
  else if msg.data = "STOP".data then (stopAllMotors s, .stopped)
  else (s, .unknownCommand)

/-- The `WStype_DISCONNECTED` branch: deauthenticate and stop all motors. -/
def onDisconnect (s : State) : State :=
  stopAllMotors { s with authenticated := false }

/-- The `WStype_CONNECTED` branch: the fresh session is unauthenticated. -/
def onConnect (s : State) : State :=
  { s with authenticated := false }

/-- The heartbeat check in `loop()`: past `PING_TIMEOUT` ms since
`lastPing`, stop all motors and deauthenticate. -/
def loopTick (s : State) (now : ℕ) : State :=
  if s.authenticated = true ∧ now - s.lastPing > PING_TIMEOUT then
    { stopAllMotors s with authenticated := false }
  else s

/-- Process a sequence of received text frames in order, each tagged with
its arrival time (`millis()` value). -/
def processAll (s : State) (items : List (ℕ × String)) : State :=
  items.foldl (fun st it => (handleText st it.1 it.2).1) s

end BaseWS

namespace ArmWS

/-- Global state of the WebSocket arm firmware: the `authenticated`
flag, `lastPing`, and the five servo angles (`servoPositions`, which are
written straight to the servos). -/
structure State where
  authenticated : Bool
  lastPing : ℕ
  base : ℤ
  shoulder : ℤ
  elbow : ℤ
  wrist : ℤ
  gripper : ℤ
deriving Repr, DecidableEq

/-- The `WStype_TEXT` branch of the arm's `webSocketEvent`: AUTH, the
authentication gate, PING, and the `ARM` command (five integers, each
clamped to [0, 180] and written to the servos). -/
def handleText (s : State) (now : ℕ) (msg : String) : State × Reply :=
  if strStarts msg "AUTH:" then
    if msg.data.drop 5 = BaseWS.authToken.data then
      ({ s with authenticated := true, lastPing := now }, .authOk)
    else (s, .authFail)
  else if s.authenticated = false then (s, .notAuthenticated)
  else if msg.data = "PING".data then ({ s with lastPing := now }, .pong)
  else if strStarts msg "ARM " then
    match scanInts 5 (msg.data.drop 3) with
    | [b, sh, el, wr, gr] =>
      ({ s with base := constrain b 0 180, shoulder := constrain sh 0 180,
                elbow := constrain el 0 180, wrist := constrain wr 0 180,
                gripper := constrain gr 0 180 }, .ok)
    | _ => (s, .errorInvalidFormat)
  else (s, .unknownCommand)

/-- The arm's `WStype_DISCONNECTED` branch: deauthenticate only — no
servo write of any kind is performed. -/
def onDisconnect (s : State) : State :=
  { s with authenticated := false }

/-- The arm's `WStype_CONNECTED` branch: the fresh session is
unauthenticated. -/
def onConnect (s : State) : State :=
  { s with authenticated := false }

/-- The arm's heartbeat check in `loop()`: on timeout it only clears
`authenticated`; the servo outputs are untouched. -/
def loopTick (s : State) (now : ℕ) : State :=
  if s.authenticated = true ∧ now - s.lastPing > BaseWS.PING_TIMEOUT then
    { s with authenticated := false }
  else s

end ArmWS

namespace BaseBLE

/-- `MAX_SPEED = (1 << PWM_RESOLUTION) - 1 = 255`. -/
def MAX_SPEED : ℤ := 255

/-- The four motor output channels of the BLE base firmware. -/
structure Motors where
  m1 : MotorOut
  m2 : MotorOut
  m3 : MotorOut
  m4 : MotorOut
deriving Repr, DecidableEq

/-- `setMotor`: clamp to ±`MAX_SPEED`, direction pins from the sign, PWM
duty `abs(speed)` (or 0 when stopped). -/
def setMotor (speed : ℤ) : MotorOut :=
  let s := constrain speed (-MAX_SPEED) MAX_SPEED
  if s > 0 then ⟨true, false, s⟩
  else if s < 0 then ⟨false, true, |s|⟩
  else ⟨false, false, 0⟩

/-- `stopMotors`: `setMotor(..., 0)` on all four channels. -/
def stopMotors : Motors := ⟨setMotor 0, setMotor 0, setMotor 0, setMotor 0⟩

/-- `moveXY` raw front-left speed `vy + vx`. -/
def rawFL (vx vy : ℚ) : ℚ := vy + vx

/-- `moveXY` raw front-right speed `vy - vx`. -/
def rawFR (vx vy : ℚ) : ℚ := vy - vx

/-- `moveXY` raw rear-left speed `vy - vx`. -/
def rawRL (vx vy : ℚ) : ℚ := vy - vx

/-- `moveXY` raw rear-right speed `vy + vx`. -/
def rawRR (vx vy : ℚ) : ℚ := vy + vx

/-- `max_required = max(max(|fl|,|fr|), max(|rl|,|rr|))`. -/
def maxRequired (vx vy : ℚ) : ℚ :=
  max (max |rawFL vx vy| |rawFR vx vy|) (max |rawRL vx vy| |rawRR vx vy|)

/-- `scale = (max_required > 1.0) ? (1.0 / max_required) : 1.0`. -/
def xyScale (m : ℚ) : ℚ := if m > 1 then 1 / m else 1

/-- `pwm_fl = round(speed_fl * scale * MAX_SPEED)`. -/
def pwmFL (vx vy : ℚ) : ℤ := cround (rawFL vx vy * xyScale (maxRequired vx vy) * 255)

/-- `pwm_fr = round(speed_fr * scale * MAX_SPEED)`. -/
def pwmFR (vx vy : ℚ) : ℤ := cround (rawFR vx vy * xyScale (maxRequired vx vy) * 255)

/-- `pwm_rl = round(speed_rl * scale * MAX_SPEED)`. -/
def pwmRL (vx vy : ℚ) : ℤ := cround (rawRL vx vy * xyScale (maxRequired vx vy) * 255)

/-- `pwm_rr = round(speed_rr * scale * MAX_SPEED)`. -/
def pwmRR (vx vy : ℚ) : ℤ := cround (rawRR vx vy * xyScale (maxRequired vx vy) * 255)

/-- `moveXY`: normalized inverse kinematics applied to the motors. -/
def moveXY (vx vy : ℚ) : Motors :=
  ⟨setMotor (pwmFL vx vy), setMotor (pwmFR vx vy),
   setMotor (pwmRL vx vy), setMotor (pwmRR vx vy)⟩

/-- The `M:vx:vy` branch of `MyCallbacks::onWrite` after parsing the two
floats: dead-zone full stop, else `moveXY`. -/
def handleM (vx vy : ℚ) : Motors :=
  if |vx| < 1/20 ∧ |vy| < 1/20 then stopMotors else moveXY vx vy

/-- The `S:value` branch: `rotationSpeed = constrain(val, 50, MAX_SPEED)`. -/
def rotationSpeedUpdate (val : ℤ) : ℤ := constrain val 50 MAX_SPEED

/-- `rotateLeft` at the configured rotation speed. -/
def rotateLeft (rs : ℤ) : Motors :=
  ⟨setMotor rs, setMotor (-rs), setMotor rs, setMotor (-rs)⟩

/-- `rotateRight` at the configured rotation speed. -/
def rotateRight (rs : ℤ) : Motors :=
  ⟨setMotor (-rs), setMotor rs, setMotor (-rs), setMotor rs⟩

end BaseBLE

namespace ArmBLE

/-- `FSR_THRESHOLD`: the calibrated force-sensor safety threshold. -/
def FSR_THRESHOLD : ℤ := 2500

/-- Servo output state of the BLE arm firmware: the angles last written
to the five servos (the gripper field is `servoGripper.read()`). -/
structure State where
  base : ℤ
  shoulder : ℤ
  elbow : ℤ
  wrist : ℤ
  gripper : ℤ
deriving Repr, DecidableEq

/-- `moveServo`: clamp the target angle to [0, 180] and write it. -/
def moveServo (targetAngle : ℤ) : ℤ := constrain targetAngle 0 180

/-- `moveGripper`: clamp the target to [0, 110]; if the force reading
exceeds the threshold and the (clamped) target is below the current
gripper angle, discard the command; otherwise write the target. -/
def moveGripper (s : State) (pressure targetAngle : ℤ) : State :=
  let t := constrain targetAngle 0 110
  if pressure > FSR_THRESHOLD ∧ t < s.gripper then s
  else { s with gripper := t }

/-- Arduino `String.indexOf(c, fromIndex)`: first index ≥ `fromIndex`
holding `c`, if any. -/
def indexOfFrom (cs : List Char) (c : Char) (i : ℕ) : Option ℕ :=
  match (cs.drop i).findIdx? (· = c) with
  | some k => some (i + k)
  | none => none

/-- Arduino `String.substring(from, to)`: characters in `[from, to)`. -/
def slice (cs : List Char) (a b : ℕ) : List Char := (cs.take b).drop a

/-- Arduino `String.toInt` (`atol`): leading whitespace, optional sign,
digits; `0` when no digits are found. -/
def toIntArd (cs : List Char) : ℤ :=
  match scanInt? cs with
  | some (v, _) => v
  | none => 0

/-- The colon-splitting loop of the `A:` handler: up to five iterations,
each taking the substring up to the next colon (or end), converting it
with `toInt`, and breaking once the cursor passes the end of the string.
Returns the collected values; their number is the loop's `count`. -/
def aScan (cs : List Char) : ℕ → ℕ → List ℤ → List ℤ
  | 0, _, acc => acc.reverse
  | fuel + 1, lastIndex, acc =>
    let len := cs.length
    let nextIndex := (indexOfFrom cs ':' lastIndex).getD len
    let v := toIntArd (slice cs lastIndex nextIndex)
    if nextIndex + 1 > len then (v :: acc).reverse
    else aScan cs fuel (nextIndex + 1) (v :: acc)

/-- `MyCallbacks::onWrite` of the BLE arm: on an `A:`-prefixed frame,
split out up to five values; only when exactly five were collected,
write the four servos (clamped) and run the gripper interlock.  No
branch ever sends a reply. -/
def onWrite (s : State) (pressure : ℤ) (msg : String) : State :=
  if msg.data ≠ [] then
    if strStarts msg "A:" then
      match aScan msg.data 5 2 [] with
      | [b, sh, el, wr, gr] =>
        let s1 := { s with base := moveServo b, shoulder := moveServo sh,
                           elbow := moveServo el, wrist := moveServo wr }
        moveGripper s1 pressure gr
      | _ => s
    else s
  else s

end ArmBLE

namespace JoyDoc

/-- `radians + π/4` for a joystick angle given in degrees
(`handleJoystickMove` in `JOYSTICK_EXPLANATION.md`). -/
noncomputable def jangle (angle : ℝ) : ℝ := angle * Real.pi / 180 + Real.pi / 4

/-- Raw front-left speed `sin(radians + π/4) * (distance * 100)`. -/
noncomputable def rawFL (angle d : ℝ) : ℝ := Real.sin (jangle angle) * (d * 100)

/-- Raw front-right speed `cos(radians + π/4) * (distance * 100)`. -/
noncomputable def rawFR (angle d : ℝ) : ℝ := Real.cos (jangle angle) * (d * 100)

/-- Raw rear-left speed `cos(radians + π/4) * (distance * 100)`. -/
noncomputable def rawRL (angle d : ℝ) : ℝ := Real.cos (jangle angle) * (d * 100)

/-- Raw rear-right speed `sin(radians + π/4) * (distance * 100)`. -/
noncomputable def rawRR (angle d : ℝ) : ℝ := Real.sin (jangle angle) * (d * 100)

/-- `maxVal = Math.max(|fl|, |fr|, |rl|, |rr|, 1.0)`. -/
noncomputable def maxVal (angle d : ℝ) : ℝ :=
  max (max (max |rawFL angle d| |rawFR angle d|) (max |rawRL angle d| |rawRR angle d|)) 1

/-- `scale = 100 / maxVal`. -/
noncomputable def jscale (angle d : ℝ) : ℝ := 100 / maxVal angle d

/-- The four rounded wheel speeds sent as `MECANUM fl fr rl rr`. -/
noncomputable def speeds (angle d : ℝ) : ℤ × ℤ × ℤ × ℤ :=
  (round (rawFL angle d * jscale angle d), round (rawFR angle d * jscale angle d),
   round (rawRL angle d * jscale angle d), round (rawRR angle d * jscale angle d))

end JoyDoc

namespace ArmUI

/-- `HOMING_SPEED`: degrees per homing tick. -/
def HOMING_SPEED : ℚ := 3

/-- The five arm joint values held by the dual-joystick client. -/
structure Joints where
  base : ℚ
  shoulder : ℚ
  elbow : ℚ
  wrist : ℚ
  gripper : ℚ
deriving Repr, DecidableEq

/-- `HOME_POSITIONS`. -/
def HOME : Joints := ⟨90, 0, 180, 110, 110⟩

/-- `moveTowards(current, target, speed)`: snap to the target when the
remaining distance is below one step, else step by `speed` toward it. -/
def moveTowards (current target speed : ℚ) : ℚ :=
  if |current - target| < speed then target
  else if current < target then current + speed else current - speed

/-- One homing tick over all five joints. -/
def homingJoints (j : Joints) : Joints :=
  ⟨moveTowards j.base 90 HOMING_SPEED, moveTowards j.shoulder 0 HOMING_SPEED,
   moveTowards j.elbow 180 HOMING_SPEED, moveTowards j.wrist 110 HOMING_SPEED,
   moveTowards j.gripper 110 HOMING_SPEED⟩

/-- The loop's `reachedHome` flag: true when every joint's distance to
home was below one step at the start of the tick. -/
def reachedHome (j : Joints) : Bool :=
  decide (|j.base - 90| < HOMING_SPEED ∧ |j.shoulder - 0| < HOMING_SPEED ∧
          |j.elbow - 180| < HOMING_SPEED ∧ |j.wrist - 110| < HOMING_SPEED ∧
          |j.gripper - 110| < HOMING_SPEED)

/-- Control-loop state of the arm client: joint values, the two slider
velocities, the arm joystick velocities and the homing flag. -/
structure CtrlState where
  joints : Joints
  baseVel : ℚ
  wristVel : ℚ
  vx : ℚ
  vy : ℚ
  isHoming : Bool
deriving Repr, DecidableEq

/-- `Math.max(lo, Math.min(hi, x))`. -/
def clampQ (x lo hi : ℚ) : ℚ := max lo (min hi x)

/-- `MAX_SPEED = 5.0` of the manual control loop. -/
def MAX_STEP : ℚ := 5

/-- The manual-control branch of one control tick: velocity integration
for base and wrist, super-linear joystick integration for shoulder and
elbow, every joint clamped to its range. -/
def manualJoints (c : CtrlState) : Joints :=
  let j := c.joints
  let base := if |c.baseVel| > 5 then clampQ (j.base + c.baseVel / 100 * MAX_STEP) 0 180 else j.base
  let wrist := if |c.wristVel| > 5 then clampQ (j.wrist + c.wristVel / 100 * MAX_STEP) 0 110 else j.wrist
  let joy := |c.vx| > 1/20 ∨ |c.vy| > 1/20
  let shoulder := if joy then clampQ (j.shoulder + c.vx * |c.vx| * MAX_STEP) 0 70 else j.shoulder
  let elbow := if joy then clampQ (j.elbow + (-c.vy) * |c.vy| * MAX_STEP) 0 180 else j.elbow
  ⟨base, shoulder, elbow, wrist, j.gripper⟩

/-- One control tick: the homing branch (step all joints toward home and
clear `isHoming` once every distance is below one step) or the manual
branch. -/
def tick (c : CtrlState) : CtrlState :=
  if c.isHoming = true then
    { c with joints := homingJoints c.joints, isHoming := !reachedHome c.joints }
  else
    { c with joints := manualJoints c }

/-- `handleArmJoystick`: any deflection past the dead zone cancels
homing; the joystick velocities are stored either way. -/
def handleArmJoystick (c : CtrlState) (x y : ℚ) : CtrlState :=
  { c with isHoming := if |x| > 1/20 ∨ |y| > 1/20 then false else c.isHoming,
           vx := x, vy := y }

/-- The largest distance of any joint from its home angle. -/
def maxDist (j : Joints) : ℚ :=
  max (max (max |j.base - 90| |j.shoulder - 0|) (max |j.elbow - 180| |j.wrist - 110|))
    |j.gripper - 110|

end ArmUI

/-! ## Theorems -/

section Claims

/-- Claim C1: for every session and every received message other than an
AUTH handshake, while the session is unauthenticated the controller
replies `NOT_AUTHENTICATED` and performs no state change; an AUTH message
with the matching token transitions the session to authenticated and
replies `AUTH_OK`; a non-matching token replies `AUTH_FAIL` and leaves
the session state unchanged (in particular unauthenticated).  Holds for
both WebSocket firmwares. -/
theorem C1_auth_gating (sb : BaseWS.State) (sa : ArmWS.State) (now : ℕ) (msg : String) :
    (sb.authenticated = false → strStarts msg "AUTH:" = false →
      BaseWS.handleText sb now msg = (sb, Reply.notAuthenticated)) ∧
    (sa.authenticated = false → strStarts msg "AUTH:" = false →
      ArmWS.handleText sa now msg = (sa, Reply.notAuthenticated)) ∧
    (strStarts msg "AUTH:" = true → msg.data.drop 5 = BaseWS.authToken.data →
      BaseWS.handleText sb now msg =
        ({ sb with authenticated := true, lastPing := now }, Reply.authOk) ∧
      ArmWS.handleText sa now msg =
        ({ sa with authenticated := true, lastPing := now }, Reply.authOk)) ∧
    (strStarts msg "AUTH:" = true → msg.data.drop 5 ≠ BaseWS.authToken.data →
      BaseWS.handleText sb now msg = (sb, Reply.authFail) ∧
      ArmWS.handleText sa now msg = (sa, Reply.authFail)) := by
  refine ⟨?_, ?_, ?_, ?_⟩
  · intro h1 h2
    simp [BaseWS.handleText, h1, h2]
  · intro h1 h2
    simp [ArmWS.handleText, h1, h2]
  · intro h1 h2
    constructor
    · simp [BaseWS.handleText, h1, h2]
    · simp [ArmWS.handleText, h1, h2]
  · intro h1 h2
    constructor
    · simp [BaseWS.handleText, h1, h2]
    · simp [ArmWS.handleText, h1, h2]

/-- Witness for C1 at concrete states and frames. -/
theorem C1_auth_gating_witness :
    BaseWS.handleText ⟨false, 0, .stopped, .stopped, .stopped, .stopped⟩ 7 "MECANUM 10 0 0 10" =
      (⟨false, 0, .stopped, .stopped, .stopped, .stopped⟩, Reply.notAuthenticated) ∧
    ArmWS.handleText ⟨false, 0, 90, 90, 90, 90, 90⟩ 7 "PING" =
      (⟨false, 0, 90, 90, 90, 90, 90⟩, Reply.notAuthenticated) ∧
    BaseWS.handleText ⟨false, 0, .stopped, .stopped, .stopped, .stopped⟩ 7 "AUTH:mysecret" =
      (⟨true, 7, .stopped, .stopped, .stopped, .stopped⟩, Reply.authOk) ∧
    BaseWS.handleText ⟨false, 0, .stopped, .stopped, .stopped, .stopped⟩ 7 "AUTH:nope" =
      (⟨false, 0, .stopped, .stopped, .stopped, .stopped⟩, Reply.authFail) := by
  refine ⟨?_, ?_, ?_, ?_⟩
  · exact (C1_auth_gating _ ⟨false, 0, 90, 90, 90, 90, 90⟩ 7 _).1 rfl (by decide)
  · exact (C1_auth_gating ⟨false, 0, .stopped, .stopped, .stopped, .stopped⟩ _ 7 _).2.1 rfl (by decide)
  · exact ((C1_auth_gating _ ⟨false, 0, 90, 90, 90, 90, 90⟩ 7 _).2.2.1 (by decide) (by decide)).1
  · exact ((C1_auth_gating _ ⟨false, 0, 90, 90, 90, 90, 90⟩ 7 _).2.2.2 (by decide) (by decide)).1

/-- Counterexample to claim C2: on the WebSocket arm controller, a
heartbeat timeout (and likewise a transport disconnect) only clears the
`authenticated` flag; every servo output keeps its previous value and no
stop of any kind is issued to the actuators — contradicting the claim
that both controllers issue an immediate full stop. -/
theorem C2_counterexample :
    ArmWS.loopTick ⟨true, 0, 10, 20, 30, 40, 50⟩ 10001 = ⟨false, 0, 10, 20, 30, 40, 50⟩ ∧
    ArmWS.onDisconnect ⟨true, 0, 10, 20, 30, 40, 50⟩ = ⟨false, 0, 10, 20, 30, 40, 50⟩ := by
  constructor
  · simp [ArmWS.loopTick, BaseWS.PING_TIMEOUT]
  · rfl

/-- Amended claim C2: on the WebSocket base controller a heartbeat lapse
beyond 10 000 ms deauthenticates and stops all four motors, a disconnect
deauthenticates and stops, and a (re)connect starts unauthenticated; on
the WebSocket arm controller, timeout and disconnect only deauthenticate
— the servo outputs are left exactly as they were (no actuator stop is
issued) — and a (re)connect likewise starts unauthenticated. -/
theorem C2_failsafe_amended (sb : BaseWS.State) (sa : ArmWS.State) (now : ℕ) :
    (sb.authenticated = true → now - sb.lastPing > BaseWS.PING_TIMEOUT →
      (BaseWS.loopTick sb now).authenticated = false ∧
      (BaseWS.loopTick sb now).m1 = .stopped ∧ (BaseWS.loopTick sb now).m2 = .stopped ∧
      (BaseWS.loopTick sb now).m3 = .stopped ∧ (BaseWS.loopTick sb now).m4 = .stopped) ∧
    ((BaseWS.onDisconnect sb).authenticated = false ∧
      (BaseWS.onDisconnect sb).m1 = .stopped ∧ (BaseWS.onDisconnect sb).m2 = .stopped ∧
      (BaseWS.onDisconnect sb).m3 = .stopped ∧ (BaseWS.onDisconnect sb).m4 = .stopped) ∧
    ((BaseWS.onConnect sb).authenticated = false) ∧
    (sa.authenticated = true → now - sa.lastPing > BaseWS.PING_TIMEOUT →
      ArmWS.loopTick sa now = { sa with authenticated := false }) ∧
    (ArmWS.onDisconnect sa = { sa with authenticated := false }) ∧
    ((ArmWS.onConnect sa).authenticated = false) := by
  refine ⟨?_, ?_, ?_, ?_, ?_, ?_⟩
  · intro h1 h2
    simp [BaseWS.loopTick, BaseWS.stopAllMotors, h1, h2]
  · simp [BaseWS.onDisconnect, BaseWS.stopAllMotors]
  · simp [BaseWS.onConnect]
  · intro h1 h2
    simp [ArmWS.loopTick, h1, h2]
  · rfl
  · simp [ArmWS.onConnect]

/-- Witness for the amended C2 at a concrete authenticated base state
past its deadline, plus the matching arm case. -/
theorem C2_failsafe_amended_witness :
    (BaseWS.loopTick ⟨true, 0, ⟨true, false, 255⟩, ⟨true, false, 255⟩,
        ⟨true, false, 255⟩, ⟨true, false, 255⟩⟩ 10001).m1 = .stopped ∧
    (BaseWS.loopTick ⟨true, 0, ⟨true, false, 255⟩, ⟨true, false, 255⟩,
        ⟨true, false, 255⟩, ⟨true, false, 255⟩⟩ 10001).authenticated = false ∧
    ArmWS.loopTick ⟨true, 0, 1, 2, 3, 4, 5⟩ 10001 = ⟨false, 0, 1, 2, 3, 4, 5⟩ := by
  have h := C2_failsafe_amended
    ⟨true, 0, ⟨true, false, 255⟩, ⟨true, false, 255⟩, ⟨true, false, 255⟩, ⟨true, false, 255⟩⟩
    ⟨true, 0, 1, 2, 3, 4, 5⟩ 10001
  exact ⟨(h.1 rfl (by decide)).2.1, (h.1 rfl (by decide)).1, h.2.2.2.1 rfl (by decide)⟩

/-- Claim C4: whenever the gripper's current angle is within its [0, 110]
range, a closing command (target below the current angle) issued while
the force reading exceeds the threshold leaves the gripper angle
unchanged for that tick, and an opening command (target at or above the
current angle) is never blocked by the interlock — it always writes the
clamped target, whatever the force reading. -/
theorem C4_gripper_interlock (s : ArmBLE.State) (pressure target : ℤ)
    (hlo : 0 ≤ s.gripper) (hhi : s.gripper ≤ 110) :
    (target < s.gripper → pressure > ArmBLE.FSR_THRESHOLD →
      (ArmBLE.moveGripper s pressure target).gripper = s.gripper) ∧
    (s.gripper ≤ target →
      ArmBLE.moveGripper s pressure target = { s with gripper := constrain target 0 110 }) := by
  constructor
  · intro ht hp
    unfold ArmBLE.moveGripper
    by_cases hc : constrain target 0 110 < s.gripper
    · simp [hp, hc]
    · have : constrain target 0 110 = s.gripper := by
        unfold constrain at hc ⊢
        split_ifs at hc ⊢ <;> omega
      simp [hc, this]
  · intro ht
    unfold ArmBLE.moveGripper
    rw [if_neg]
    rintro ⟨-, hlt⟩
    unfold constrain at hlt
    split_ifs at hlt <;> omega

/-- Witness for C4: at gripper angle 60 under pressure 3000, closing to
40 is discarded while opening to 80 goes through. -/
theorem C4_gripper_interlock_witness :
    (ArmBLE.moveGripper ⟨90, 0, 90, 110, 60⟩ 3000 40).gripper = 60 ∧
    ArmBLE.moveGripper ⟨90, 0, 90, 110, 60⟩ 3000 80 = ⟨90, 0, 90, 110, 80⟩ := by
  have h1 := C4_gripper_interlock ⟨90, 0, 90, 110, 60⟩ 3000 40 (by decide) (by decide)
  have h2 := C4_gripper_interlock ⟨90, 0, 90, 110, 60⟩ 3000 80 (by decide) (by decide)
  refine ⟨h1.1 (by decide) (by decide), ?_⟩
  rw [h2.2 (by decide)]
  rfl

/-- Claim C9: any velocity-drive input whose magnitude is inside the
dead zone (0.05 on normalized input) makes the BLE base command a full
stop on all four wheels — zero PWM and both direction pins LOW — rather
than a scaled near-zero drive. -/
theorem C9_dead_zone_stop (vx vy : ℚ) (h : vx ^ 2 + vy ^ 2 < (1 / 20) ^ 2) :
    BaseBLE.handleM vx vy = BaseBLE.stopMotors ∧
    BaseBLE.stopMotors =
      ⟨⟨false, false, 0⟩, ⟨false, false, 0⟩, ⟨false, false, 0⟩, ⟨false, false, 0⟩⟩ := by
  have hx : |vx| < 1 / 20 := by
    apply lt_of_pow_lt_pow_left₀ 2 (by norm_num)
    rw [sq_abs]
    nlinarith [sq_nonneg vy]
  have hy : |vy| < 1 / 20 := by
    apply lt_of_pow_lt_pow_left₀ 2 (by norm_num)
    rw [sq_abs]
    nlinarith [sq_nonneg vx]
  refine ⟨?_, by decide⟩
  unfold BaseBLE.handleM
  rw [if_pos ⟨hx, hy⟩]

/-- Witness for C9 at the concrete input (0.01, 0.01). -/
theorem C9_dead_zone_stop_witness :
    (1 / 100 : ℚ) ^ 2 + (1 / 100 : ℚ) ^ 2 < (1 / 20) ^ 2 ∧
    BaseBLE.handleM (1 / 100) (1 / 100) = BaseBLE.stopMotors := by
  exact ⟨by norm_num, (C9_dead_zone_stop (1 / 100) (1 / 100) (by norm_num)).1⟩

/-- Any frame that is neither an AUTH handshake nor a PING leaves the
base firmware's heartbeat deadline and authentication flag unchanged. -/
theorem BaseWS.handleText_motion_keeps (s : BaseWS.State) (now : ℕ) (msg : String)
    (h1 : strStarts msg "AUTH:" = false) (h2 : msg.data ≠ "PING".data) :
    (BaseWS.handleText s now msg).1.lastPing = s.lastPing ∧
    (BaseWS.handleText s now msg).1.authenticated = s.authenticated := by
  unfold BaseWS.handleText
  rw [if_neg (by simp [h1])]
  by_cases ha : s.authenticated = false
  · rw [if_pos ha]
    exact ⟨rfl, rfl⟩
  · rw [if_neg ha, if_neg h2]
    by_cases hm : strStarts msg "MECANUM " = true
    · rw [if_pos hm]
      rcases hsc : scanInts 4 (msg.data.drop 7) with _ | ⟨a, _ | ⟨b, _ | ⟨c, _ | ⟨d, _ | ⟨e, t⟩⟩⟩⟩⟩ <;>
        exact ⟨rfl, rfl⟩
    · rw [if_neg hm]
      by_cases hst : msg.data = "STOP".data
      · rw [if_pos hst]
        exact ⟨rfl, rfl⟩
      · rw [if_neg hst]
        exact ⟨rfl, rfl⟩

/-- Any frame that is neither an AUTH handshake nor a PING leaves the
arm firmware's heartbeat deadline and authentication flag unchanged. -/
theorem ArmWS.armHandleText_motion_keeps (s : ArmWS.State) (now : ℕ) (msg : String)
    (h1 : strStarts msg "AUTH:" = false) (h2 : msg.data ≠ "PING".data) :
    (ArmWS.handleText s now msg).1.lastPing = s.lastPing ∧
    (ArmWS.handleText s now msg).1.authenticated = s.authenticated := by
  unfold ArmWS.handleText
  rw [if_neg (by simp [h1])]
  by_cases ha : s.authenticated = false
  · rw [if_pos ha]
    exact ⟨rfl, rfl⟩
  · rw [if_neg ha, if_neg h2]
    by_cases hm : strStarts msg "ARM " = true
    · rw [if_pos hm]
      rcases hsc : scanInts 5 (msg.data.drop 3) with _ | ⟨a, _ | ⟨b, _ | ⟨c, _ | ⟨d, _ | ⟨e, t⟩⟩⟩⟩⟩ <;>
        first
        | exact ⟨rfl, rfl⟩
        | rcases t with _ | ⟨f, t2⟩ <;> exact ⟨rfl, rfl⟩
    · rw [if_neg hm]
      exact ⟨rfl, rfl⟩

/-- A whole stream of non-AUTH, non-PING frames leaves the base
firmware's heartbeat deadline and authentication flag unchanged. -/
theorem BaseWS.processAll_motion_keeps (items : List (ℕ × String)) :
    ∀ s : BaseWS.State,
      (∀ it ∈ items, strStarts it.2 "AUTH:" = false ∧ it.2.data ≠ "PING".data) →
      (BaseWS.processAll s items).lastPing = s.lastPing ∧
      (BaseWS.processAll s items).authenticated = s.authenticated := by
  induction items with
  | nil => exact fun s _ => ⟨rfl, rfl⟩
  | cons it its ih =>
    intro s h
    have hh := h it (List.mem_cons_self it its)
    have h1 := BaseWS.handleText_motion_keeps s it.1 it.2 hh.1 hh.2
    have h2 := ih (BaseWS.handleText s it.1 it.2).1 fun x hx => h x (List.mem_cons_of_mem _ hx)
    have hfold : BaseWS.processAll s (it :: its) =
        BaseWS.processAll (BaseWS.handleText s it.1 it.2).1 its := rfl
    rw [hfold]
    exact ⟨h2.1.trans h1.1, h2.2.trans h1.2⟩

/-- Claim C10: only a successful AUTH handshake and a PING reset the
heartbeat deadline `lastPing`; honored motion commands do not, so an
authenticated session that streams only motion frames for more than
10 000 ms is deauthenticated (and, on the base, stopped) by the
heartbeat check even though commands keep arriving. -/
theorem C10_motion_starves_heartbeat :
    (∀ (s : BaseWS.State) (now : ℕ) (msg : String),
      strStarts msg "AUTH:" = false → msg.data ≠ "PING".data →
      (BaseWS.handleText s now msg).1.lastPing = s.lastPing) ∧
    (∀ (s : ArmWS.State) (now : ℕ) (msg : String),
      strStarts msg "AUTH:" = false → msg.data ≠ "PING".data →
      (ArmWS.handleText s now msg).1.lastPing = s.lastPing) ∧
    (∀ (s : BaseWS.State) (now : ℕ) (msg : String),
      strStarts msg "AUTH:" = true → msg.data.drop 5 = BaseWS.authToken.data →
      (BaseWS.handleText s now msg).1.lastPing = now) ∧
    (∀ (s : BaseWS.State) (now : ℕ),
      s.authenticated = true → (BaseWS.handleText s now "PING").1.lastPing = now) ∧
    (∀ (s : BaseWS.State) (items : List (ℕ × String)) (now : ℕ),
      s.authenticated = true →
      (∀ it ∈ items, strStarts it.2 "AUTH:" = false ∧ it.2.data ≠ "PING".data) →
      now > s.lastPing + BaseWS.PING_TIMEOUT →
      (BaseWS.loopTick (BaseWS.processAll s items) now).authenticated = false ∧
      (BaseWS.loopTick (BaseWS.processAll s items) now).m1 = MotorOut.stopped) := by
  refine ⟨?_, ?_, ?_, ?_, ?_⟩
  · exact fun s now msg h1 h2 => (BaseWS.handleText_motion_keeps s now msg h1 h2).1
  · exact fun s now msg h1 h2 => (ArmWS.armHandleText_motion_keeps s now msg h1 h2).1
  · intro s now msg h1 h2
    unfold BaseWS.handleText
    rw [if_pos h1, if_pos h2]
  · intro s now h
    unfold BaseWS.handleText
    rw [if_neg (by decide), if_neg (by simp [h]), if_pos rfl]
  · intro s items now hauth hmot hlate
    have hk := BaseWS.processAll_motion_keeps items s hmot
    have hcond : (BaseWS.processAll s items).authenticated = true ∧
        now - (BaseWS.processAll s items).lastPing > BaseWS.PING_TIMEOUT := by
      refine ⟨hk.2.trans hauth, ?_⟩
      rw [hk.1]
      unfold BaseWS.PING_TIMEOUT at hlate ⊢
      omega
    unfold BaseWS.loopTick
    rw [if_pos hcond]
    exact ⟨rfl, rfl⟩

/-- Witness for C10: a session authenticated at time 0 that sends two
well-formed MECANUM frames but no PING is deauthenticated by the
heartbeat check at time 10 001. -/
theorem C10_motion_starves_heartbeat_witness :
    (BaseWS.loopTick
      (BaseWS.processAll ⟨true, 0, .stopped, .stopped, .stopped, .stopped⟩
        [(5, "MECANUM 10 0 0 10"), (9000, "MECANUM 20 20 20 20")]) 10001).authenticated
      = false := by
  have h := C10_motion_starves_heartbeat
  exact (h.2.2.2.2 ⟨true, 0, .stopped, .stopped, .stopped, .stopped⟩
    [(5, "MECANUM 10 0 0 10"), (9000, "MECANUM 20 20 20 20")] 10001 rfl
    (by decide) (by decide)).1

/-- Counterexample to claim C6: the BLE arm's `A:` parser does not
reject a frame with six values (wrong arity for its five-value family);
it decodes the first five and applies them, mutating the servo state —
and it sends no ERROR (indeed no reply at all). -/
theorem C6_counterexample :
    ArmBLE.onWrite ⟨90, 0, 90, 110, 110⟩ 0 "A:1:2:3:4:5:6" = ⟨1, 2, 3, 4, 5⟩ := by
  decide

/-- `sscanf` performs at most `n` conversions: everything after them in
the frame is never decoded. -/
theorem scanInts_length_le (n : ℕ) : ∀ cs : List Char, (scanInts n cs).length ≤ n := by
  induction n with
  | zero =>
    intro cs
    simp [scanInts]
  | succ n ih =>
    intro cs
    unfold scanInts
    cases h : scanInt? cs with
    | none => simp
    | some p =>
      simpa using ih p.2

/-- The `A:` splitting loop collects at most `fuel` further values. -/
theorem ArmBLE.aScan_length_le (cs : List Char) :
    ∀ (fuel i : ℕ) (acc : List ℤ), (ArmBLE.aScan cs fuel i acc).length ≤ acc.length + fuel := by
  intro fuel
  induction fuel with
  | zero =>
    intro i acc
    simp [ArmBLE.aScan]
  | succ n ih =>
    intro i acc
    unfold ArmBLE.aScan
    dsimp only
    split_ifs
    · simp only [List.length_reverse, List.length_cons]
      omega
    · refine le_trans (ih _ _) ?_
      simp only [List.length_cons]
      omega

/-- Amended claim C6: a frame with fewer values than its family's arity
is never applied — the WebSocket controllers reply `ERROR: Invalid
format` and mutate nothing, while the BLE arm mutates nothing but sends
no reply of any kind.  A frame with extra values is not rejected: each
parser decodes at most its arity (four `%d` conversions for `MECANUM`,
five colon fields for `A:`), and whenever that many values decode the
command is applied with them, everything further in the frame being
ignored — e.g. `MECANUM 1 2 3 4 5` applies (1, 2, 3, 4) and
`A:1:2:3:4:5:6` applies (1, 2, 3, 4, 5). -/
theorem C6_arity_amended :
    (∀ (s : BaseWS.State) (now : ℕ) (msg : String),
      s.authenticated = true → strStarts msg "AUTH:" = false → msg.data ≠ "PING".data →
      strStarts msg "MECANUM " = true → (scanInts 4 (msg.data.drop 7)).length ≠ 4 →
      BaseWS.handleText s now msg = (s, Reply.errorInvalidFormat)) ∧
    (∀ (s : ArmWS.State) (now : ℕ) (msg : String),
      s.authenticated = true → strStarts msg "AUTH:" = false → msg.data ≠ "PING".data →
      strStarts msg "ARM " = true → (scanInts 5 (msg.data.drop 3)).length ≠ 5 →
      ArmWS.handleText s now msg = (s, Reply.errorInvalidFormat)) ∧
    (∀ (s : ArmBLE.State) (p : ℤ) (msg : String),
      (ArmBLE.aScan msg.data 5 2 []).length ≠ 5 →
      ArmBLE.onWrite s p msg = s) ∧
    (∀ cs : List Char, (scanInts 4 cs).length ≤ 4) ∧
    (∀ (s : BaseWS.State) (now : ℕ) (msg : String) (fl fr rl rr : ℤ),
      s.authenticated = true → strStarts msg "AUTH:" = false → msg.data ≠ "PING".data →
      strStarts msg "MECANUM " = true → scanInts 4 (msg.data.drop 7) = [fl, fr, rl, rr] →
      BaseWS.handleText s now msg =
        ({ s with m1 := BaseWS.setMotorSpeed fl, m2 := BaseWS.setMotorSpeed fr,
                  m3 := BaseWS.setMotorSpeed rl, m4 := BaseWS.setMotorSpeed rr }, Reply.ok)) ∧
    (∀ cs : List Char, (ArmBLE.aScan cs 5 2 []).length ≤ 5) ∧
    (∀ (s : ArmBLE.State) (p : ℤ) (msg : String) (b sh el wr gr : ℤ),
      msg.data ≠ [] → strStarts msg "A:" = true →
      ArmBLE.aScan msg.data 5 2 [] = [b, sh, el, wr, gr] →
      ArmBLE.onWrite s p msg =
        ArmBLE.moveGripper
          { s with base := ArmBLE.moveServo b, shoulder := ArmBLE.moveServo sh,
                   elbow := ArmBLE.moveServo el, wrist := ArmBLE.moveServo wr } p gr) ∧
    BaseWS.handleText ⟨true, 0, .stopped, .stopped, .stopped, .stopped⟩ 4 "MECANUM 1 2 3 4 5" =
      (⟨true, 0, ⟨true, false, 2⟩, ⟨true, false, 5⟩, ⟨true, false, 7⟩, ⟨true, false, 10⟩⟩,
        Reply.ok) ∧
    ArmBLE.onWrite ⟨90, 0, 90, 110, 110⟩ 0 "A:1:2:3:4:5:6" = ⟨1, 2, 3, 4, 5⟩ := by
  refine ⟨?_, ?_, ?_, scanInts_length_le 4, ?_, fun cs => by simpa using ArmBLE.aScan_length_le cs 5 2 [],
    ?_, by decide, by decide⟩
  · intro s now msg ha h1 h2 hm hlen
    unfold BaseWS.handleText
    rw [if_neg (by simp [h1]), if_neg (by simp [ha]), if_neg h2, if_pos hm]
    rcases hsc : scanInts 4 (msg.data.drop 7) with _ | ⟨a, _ | ⟨b, _ | ⟨c, _ | ⟨d, _ | ⟨e, t⟩⟩⟩⟩⟩ <;>
      first
      | rfl
      | exact absurd (by rw [hsc]; rfl) hlen
  · intro s now msg ha h1 h2 hm hlen
    unfold ArmWS.handleText
    rw [if_neg (by simp [h1]), if_neg (by simp [ha]), if_neg h2, if_pos hm]
    rcases hsc : scanInts 5 (msg.data.drop 3) with _ | ⟨a, _ | ⟨b, _ | ⟨c, _ | ⟨d, _ | ⟨e, _ | ⟨f, t⟩⟩⟩⟩⟩⟩ <;>
      first
      | rfl
      | exact absurd (by rw [hsc]; rfl) hlen
  · intro s p msg hlen
    unfold ArmBLE.onWrite
    by_cases h0 : msg.data ≠ []
    · rw [if_pos h0]
      by_cases hA : strStarts msg "A:" = true
      · rw [if_pos hA]
        rcases hsc : ArmBLE.aScan msg.data 5 2 [] with _ | ⟨a, _ | ⟨b, _ | ⟨c, _ | ⟨d, _ | ⟨e, _ | ⟨f, t⟩⟩⟩⟩⟩⟩ <;>
          first
          | rfl
          | exact absurd (by rw [hsc]; rfl) hlen
      · rw [if_neg hA]
    · rw [if_neg h0]
  · intro s now msg fl fr rl rr ha h1 h2 hm hsc
    unfold BaseWS.handleText
    rw [if_neg (by simp [h1]), if_neg (by simp [ha]), if_neg h2, if_pos hm, hsc]
  · intro s p msg b sh el wr gr h0 hA hsc
    unfold ArmBLE.onWrite
    rw [if_pos h0, if_pos hA, hsc]

/-- Witness for the amended C6: a two-value MECANUM frame draws the
ERROR reply with no mutation, and a two-value BLE `A:` frame is ignored. -/
theorem C6_arity_witness :
    BaseWS.handleText ⟨true, 3, .stopped, .stopped, .stopped, .stopped⟩ 9 "MECANUM 1 2" =
      (⟨true, 3, .stopped, .stopped, .stopped, .stopped⟩, Reply.errorInvalidFormat) ∧
    ArmBLE.onWrite ⟨90, 0, 90, 110, 110⟩ 0 "A:1:2" = ⟨90, 0, 90, 110, 110⟩ := by
  have h := C6_arity_amended
  exact ⟨h.1 _ 9 _ rfl (by decide) (by decide) (by decide) (by decide),
         h.2.2.1 _ 0 _ (by decide)⟩

/-- Claim C8: every numeric command field is clamped into its fixed
range before reaching an actuator (wheel speed to [-100, 100] and PWM to
[0, 255], servo angles to [0, 180], gripper to [0, 110], rotation speed
to [50, 255]), and a command with out-of-range values still executes —
it is never rejected; only malformed token counts are rejected. -/
theorem C8_clamp_before_actuator :
    (∀ speed : ℤ,
      BaseWS.setMotorSpeed speed = BaseWS.setMotorSpeed (constrain speed (-100) 100) ∧
      -100 ≤ constrain speed (-100) 100 ∧ constrain speed (-100) 100 ≤ 100 ∧
      0 ≤ (BaseWS.setMotorSpeed speed).pwm ∧ (BaseWS.setMotorSpeed speed).pwm ≤ 255) ∧
    (∀ a : ℤ, 0 ≤ ArmBLE.moveServo a ∧ ArmBLE.moveServo a ≤ 180) ∧
    (∀ (s : ArmBLE.State) (p t : ℤ),
      (ArmBLE.moveGripper s p t).gripper = s.gripper ∨
      (ArmBLE.moveGripper s p t).gripper = constrain t 0 110) ∧
    (∀ v : ℤ, 50 ≤ BaseBLE.rotationSpeedUpdate v ∧ BaseBLE.rotationSpeedUpdate v ≤ 255) ∧
    (∀ (s : BaseWS.State) (now : ℕ) (msg : String) (fl fr rl rr : ℤ),
      s.authenticated = true → strStarts msg "AUTH:" = false → msg.data ≠ "PING".data →
      strStarts msg "MECANUM " = true → scanInts 4 (msg.data.drop 7) = [fl, fr, rl, rr] →
      BaseWS.handleText s now msg =
        ({ s with m1 := BaseWS.setMotorSpeed fl, m2 := BaseWS.setMotorSpeed fr,
                  m3 := BaseWS.setMotorSpeed rl, m4 := BaseWS.setMotorSpeed rr }, Reply.ok)) ∧
    (∀ (s : ArmWS.State) (now : ℕ) (msg : String) (b sh el wr gr : ℤ),
      s.authenticated = true → strStarts msg "AUTH:" = false → msg.data ≠ "PING".data →
      strStarts msg "ARM " = true → scanInts 5 (msg.data.drop 3) = [b, sh, el, wr, gr] →
      ArmWS.handleText s now msg =
        ({ s with base := constrain b 0 180, shoulder := constrain sh 0 180,
                  elbow := constrain el 0 180, wrist := constrain wr 0 180,
                  gripper := constrain gr 0 180 }, Reply.ok)) := by
  refine ⟨?_, ?_, ?_, ?_, ?_, ?_⟩
  · intro speed
    have hid : constrain (constrain speed (-100) 100) (-100) 100 = constrain speed (-100) 100 := by
      unfold constrain
      split_ifs <;> omega
    have hrange : -100 ≤ constrain speed (-100) 100 ∧ constrain speed (-100) 100 ≤ 100 := by
      unfold constrain
      split_ifs <;> omega
    refine ⟨?_, hrange.1, hrange.2, ?_, ?_⟩
    · unfold BaseWS.setMotorSpeed
      rw [hid]
    · unfold BaseWS.setMotorSpeed mapPwm
      dsimp only
      split_ifs <;> dsimp only <;> omega
    · unfold BaseWS.setMotorSpeed mapPwm
      have := hrange.1
      have := hrange.2
      dsimp only
      split_ifs <;> dsimp only <;> omega
  · intro a
    unfold ArmBLE.moveServo constrain
    split_ifs <;> omega
  · intro s p t
    unfold ArmBLE.moveGripper
    dsimp only
    split_ifs <;> simp
  · intro v
    unfold BaseBLE.rotationSpeedUpdate BaseBLE.MAX_SPEED constrain
    split_ifs <;> omega
  · intro s now msg fl fr rl rr ha h1 h2 hm hsc
    unfold BaseWS.handleText
    rw [if_neg (by simp [h1]), if_neg (by simp [ha]), if_neg h2, if_pos hm, hsc]
  · intro s now msg b sh el wr gr ha h1 h2 hm hsc
    unfold ArmWS.handleText
    rw [if_neg (by simp [h1]), if_neg (by simp [ha]), if_neg h2, if_pos hm, hsc]

/-- Witness for C8: a MECANUM frame with the out-of-range speeds 150 and
-200 still executes, with every PWM inside [0, 255]. -/
theorem C8_clamp_before_actuator_witness :
    BaseWS.handleText ⟨true, 0, .stopped, .stopped, .stopped, .stopped⟩ 4 "MECANUM 150 -200 30 4" =
      (⟨true, 0, ⟨true, false, 255⟩, ⟨false, true, 255⟩, ⟨true, false, 76⟩, ⟨true, false, 10⟩⟩,
        Reply.ok) ∧
    0 ≤ (BaseWS.setMotorSpeed 150).pwm ∧ (BaseWS.setMotorSpeed 150).pwm ≤ 255 := by
  have h := C8_clamp_before_actuator
  refine ⟨?_, (h.1 150).2.2.2.1, (h.1 150).2.2.2.2⟩
  rw [h.2.2.2.2.1 _ 4 _ 150 (-200) 30 4 rfl (by decide) (by decide) (by decide) (by decide)]
  decide

/-- `moveTowards` fixes its target. -/
theorem ArmUI.moveTowards_self (t : ℚ) : ArmUI.moveTowards t t 3 = t := by
  unfold ArmUI.moveTowards
  rw [if_pos (by simp)]

/-- `moveTowards` snaps to the target once the distance is below one step. -/
theorem ArmUI.moveTowards_close (c t : ℚ) (h : |c - t| < 3) : ArmUI.moveTowards c t 3 = t := by
  unfold ArmUI.moveTowards
  rw [if_pos h]

/-- One `moveTowards` step shortens the remaining distance by exactly one
step while at least one full step remains. -/
theorem ArmUI.moveTowards_step (c t : ℚ) (h : 3 ≤ |c - t|) :
    |ArmUI.moveTowards c t 3 - t| = |c - t| - 3 := by
  unfold ArmUI.moveTowards
  rw [if_neg (not_lt.2 h)]
  rcases lt_or_le c t with hlt | hle
  · rw [if_pos hlt]
    have h1 : |c - t| = t - c := by
      rw [abs_of_neg (by linarith)]
      ring
    rw [h1] at h ⊢
    rw [abs_of_nonpos (by linarith)]
    ring
  · rw [if_neg (not_lt.2 hle)]
    have h1 : |c - t| = c - t := abs_of_nonneg (by linarith)
    rw [h1] at h ⊢
    rw [abs_of_nonneg (by linarith)]
    ring

/-- After `n` homing steps a joint within `3n` of its target has reached
it exactly. -/
theorem ArmUI.moveTowards_iter_conv (n : ℕ) :
    ∀ c t : ℚ, |c - t| ≤ 3 * n → (fun x => ArmUI.moveTowards x t 3)^[n] c = t := by
  induction n with
  | zero =>
    intro c t h
    simp only [Nat.cast_zero, mul_zero] at h
    have h0 : |c - t| = 0 := le_antisymm h (abs_nonneg _)
    have : c = t := by
      have := abs_eq_zero.1 h0
      linarith [sub_eq_zero.1 this]
    simp [this]
  | succ n ih =>
    intro c t h
    rw [Function.iterate_succ_apply]
    by_cases hc : |c - t| < 3
    · rw [ArmUI.moveTowards_close c t hc]
      apply Function.iterate_fixed
      show ArmUI.moveTowards t t 3 = t
      exact ArmUI.moveTowards_self t
    · apply ih
      rw [ArmUI.moveTowards_step c t (not_lt.1 hc)]
      push_cast at h ⊢
      linarith

/-- While more than `3n` of distance remains, `n` homing steps cannot
have reached the target. -/
theorem ArmUI.moveTowards_iter_ne (n : ℕ) :
    ∀ c t : ℚ, 3 * n < |c - t| → (fun x => ArmUI.moveTowards x t 3)^[n] c ≠ t := by
  induction n with
  | zero =>
    intro c t h hne
    rw [Function.iterate_zero_apply] at hne
    rw [hne] at h
    simp at h
  | succ n ih =>
    intro c t h
    rw [Function.iterate_succ_apply]
    have h3 : 3 ≤ |c - t| := by
      push_cast at h
      have hn : (0 : ℚ) ≤ n := Nat.cast_nonneg n
      linarith
    apply ih
    rw [ArmUI.moveTowards_step c t h3]
    push_cast at h ⊢
    linarith

/-- Iterated homing ticks act independently on each joint. -/
theorem ArmUI.homingJoints_iter (n : ℕ) (j : ArmUI.Joints) :
    ArmUI.homingJoints^[n] j =
      ⟨(fun x => ArmUI.moveTowards x 90 3)^[n] j.base,
       (fun x => ArmUI.moveTowards x 0 3)^[n] j.shoulder,
       (fun x => ArmUI.moveTowards x 180 3)^[n] j.elbow,
       (fun x => ArmUI.moveTowards x 110 3)^[n] j.wrist,
       (fun x => ArmUI.moveTowards x 110 3)^[n] j.gripper⟩ := by
  induction n generalizing j with
  | zero => rfl
  | succ n ih =>
    rw [Function.iterate_succ_apply, ih (ArmUI.homingJoints j)]
    rfl

/-- The largest joint distance to home is nonnegative. -/
theorem ArmUI.maxDist_nonneg (j : ArmUI.Joints) : 0 ≤ ArmUI.maxDist j :=
  le_trans (abs_nonneg _) (le_max_right _ _)

/-- Claim C5: from any starting joint configuration, repeated homing
ticks reach the exact home configuration in exactly
`ceil(maxJointDistance / stepSize)` ticks (and not earlier); once at
home, the next homing tick keeps the joints at home and clears the
homing flag (self-termination); and any joystick input past the dead
zone cancels homing so the next tick runs the manual branch. -/
theorem C5_homing_convergence (j : ArmUI.Joints) :
    (ArmUI.homingJoints^[(⌈ArmUI.maxDist j / 3⌉).toNat] j = ArmUI.HOME) ∧
    (∀ k : ℕ, k < (⌈ArmUI.maxDist j / 3⌉).toNat → ArmUI.homingJoints^[k] j ≠ ArmUI.HOME) ∧
    (∀ c : ArmUI.CtrlState, c.isHoming = true → c.joints = ArmUI.HOME →
      (ArmUI.tick c).joints = ArmUI.HOME ∧ (ArmUI.tick c).isHoming = false) ∧
    (∀ (c : ArmUI.CtrlState) (x y : ℚ), 1 / 20 < |x| ∨ 1 / 20 < |y| →
      (ArmUI.handleArmJoystick c x y).isHoming = false ∧
      (ArmUI.tick (ArmUI.handleArmJoystick c x y)).joints =
        ArmUI.manualJoints (ArmUI.handleArmJoystick c x y)) := by
  have hb1 : |j.base - 90| ≤ ArmUI.maxDist j :=
    le_trans (le_trans (le_max_left _ _) (le_max_left _ _)) (le_max_left _ _)
  have hb2 : |j.shoulder - 0| ≤ ArmUI.maxDist j :=
    le_trans (le_trans (le_max_right _ _) (le_max_left _ _)) (le_max_left _ _)
  have hb3 : |j.elbow - 180| ≤ ArmUI.maxDist j :=
    le_trans (le_trans (le_max_left _ _) (le_max_right _ _)) (le_max_left _ _)
  have hb4 : |j.wrist - 110| ≤ ArmUI.maxDist j :=
    le_trans (le_trans (le_max_right _ _) (le_max_right _ _)) (le_max_left _ _)
  have hb5 : |j.gripper - 110| ≤ ArmUI.maxDist j := le_max_right _ _
  have hnn : (0 : ℚ) ≤ ArmUI.maxDist j := ArmUI.maxDist_nonneg j
  have hc0 : (0 : ℤ) ≤ ⌈ArmUI.maxDist j / 3⌉ := Int.ceil_nonneg (by positivity)
  have hcast : (((⌈ArmUI.maxDist j / 3⌉).toNat : ℕ) : ℚ) = ((⌈ArmUI.maxDist j / 3⌉ : ℤ) : ℚ) := by
    exact_mod_cast congrArg (fun z : ℤ => (z : ℚ)) (Int.toNat_of_nonneg hc0)
  have hceil : ArmUI.maxDist j ≤ 3 * ((⌈ArmUI.maxDist j / 3⌉).toNat : ℚ) := by
    have h1 : ArmUI.maxDist j / 3 ≤ ((⌈ArmUI.maxDist j / 3⌉ : ℤ) : ℚ) := Int.le_ceil _
    rw [hcast]
    linarith
  refine ⟨?_, ?_, ?_, ?_⟩
  · rw [ArmUI.homingJoints_iter]
    have e1 := ArmUI.moveTowards_iter_conv _ j.base 90 (le_trans hb1 hceil)
    have e2 := ArmUI.moveTowards_iter_conv _ j.shoulder 0 (le_trans hb2 hceil)
    have e3 := ArmUI.moveTowards_iter_conv _ j.elbow 180 (le_trans hb3 hceil)
    have e4 := ArmUI.moveTowards_iter_conv _ j.wrist 110 (le_trans hb4 hceil)
    have e5 := ArmUI.moveTowards_iter_conv _ j.gripper 110 (le_trans hb5 hceil)
    rw [e1, e2, e3, e4, e5]
    rfl
  · intro k hk
    have hkQ : (3 : ℚ) * k < ArmUI.maxDist j := by
      have hklt : (k : ℤ) < ⌈ArmUI.maxDist j / 3⌉ := Int.lt_toNat.1 hk
      have h2 := Int.lt_ceil.1 hklt
      have h3 : (0 : ℚ) < 3 := by norm_num
      rw [lt_div_iff₀ h3] at h2
      push_cast at h2
      linarith
    have hattain : ArmUI.maxDist j = |j.base - 90| ∨ ArmUI.maxDist j = |j.shoulder - 0| ∨
        ArmUI.maxDist j = |j.elbow - 180| ∨ ArmUI.maxDist j = |j.wrist - 110| ∨
        ArmUI.maxDist j = |j.gripper - 110| := by
      unfold ArmUI.maxDist
      rcases max_choice (max (max |j.base - 90| |j.shoulder - 0|)
          (max |j.elbow - 180| |j.wrist - 110|)) |j.gripper - 110| with h5 | h5 <;>
        rw [h5]
      · rcases max_choice (max |j.base - 90| |j.shoulder - 0|)
            (max |j.elbow - 180| |j.wrist - 110|) with h4 | h4 <;> rw [h4]
        · rcases max_choice |j.base - 90| |j.shoulder - 0| with h3 | h3 <;> rw [h3]
          · exact Or.inl rfl
          · exact Or.inr (Or.inl rfl)
        · rcases max_choice |j.elbow - 180| |j.wrist - 110| with h3 | h3 <;> rw [h3]
          · exact Or.inr (Or.inr (Or.inl rfl))
          · exact Or.inr (Or.inr (Or.inr (Or.inl rfl)))
      · exact Or.inr (Or.inr (Or.inr (Or.inr rfl)))
    intro heq
    rw [ArmUI.homingJoints_iter] at heq
    rcases hattain with h | h | h | h | h
    · exact ArmUI.moveTowards_iter_ne k j.base 90 (by rw [← h]; exact hkQ)
        (congrArg ArmUI.Joints.base heq)
    · exact ArmUI.moveTowards_iter_ne k j.shoulder 0 (by rw [← h]; exact hkQ)
        (congrArg ArmUI.Joints.shoulder heq)
    · exact ArmUI.moveTowards_iter_ne k j.elbow 180 (by rw [← h]; exact hkQ)
        (congrArg ArmUI.Joints.elbow heq)
    · exact ArmUI.moveTowards_iter_ne k j.wrist 110 (by rw [← h]; exact hkQ)
        (congrArg ArmUI.Joints.wrist heq)
    · exact ArmUI.moveTowards_iter_ne k j.gripper 110 (by rw [← h]; exact hkQ)
        (congrArg ArmUI.Joints.gripper heq)
  · intro c hH hJ
    unfold ArmUI.tick
    rw [if_pos hH]
    constructor
    · dsimp only
      rw [hJ]
      norm_num [ArmUI.homingJoints, ArmUI.moveTowards, ArmUI.HOME, ArmUI.HOMING_SPEED]
    · dsimp only
      rw [hJ]
      norm_num [ArmUI.reachedHome, ArmUI.HOME, ArmUI.HOMING_SPEED]
  · intro c x y h
    have h1 : (ArmUI.handleArmJoystick c x y).isHoming = false := by
      unfold ArmUI.handleArmJoystick
      dsimp only
      rw [if_pos h]
    refine ⟨h1, ?_⟩
    unfold ArmUI.tick
    rw [if_neg (by rw [h1]; simp)]

/-- Witness for C5: from base angle 97 (distance 7) homing reaches home
in exactly ceil(7/3) = 3 ticks and not in 2, and a joystick deflection
of 1.0 cancels homing. -/
theorem C5_homing_convergence_witness :
    ArmUI.homingJoints^[3] ⟨97, 0, 180, 110, 110⟩ = ArmUI.HOME ∧
    ArmUI.homingJoints^[2] ⟨97, 0, 180, 110, 110⟩ ≠ ArmUI.HOME ∧
    (ArmUI.handleArmJoystick ⟨⟨97, 0, 180, 110, 110⟩, 0, 0, 0, 0, true⟩ 1 0).isHoming = false := by
  have h := C5_homing_convergence ⟨97, 0, 180, 110, 110⟩
  have hN : (⌈ArmUI.maxDist ⟨97, 0, 180, 110, 110⟩ / 3⌉).toNat = 3 := by
    have hc : (⌈(7 : ℚ) / 3⌉ : ℤ) = 3 := by
      rw [Int.ceil_eq_iff]
      norm_num
    norm_num [ArmUI.maxDist, hc]
    rfl
  refine ⟨?_, ?_, ?_⟩
  · have h1 := h.1
    rwa [hN] at h1
  · exact h.2.1 2 (by rw [hN]; norm_num)
  · exact (h.2.2.2 ⟨⟨97, 0, 180, 110, 110⟩, 0, 0, 0, 0, true⟩ 1 0 (Or.inl (by norm_num))).1

/-- Rounding keeps magnitudes within a bound that the argument respects
(255 case, C rounding on rationals). -/
theorem cround_abs_le {x : ℚ} (h : |x| ≤ 255) : |cround x| ≤ 255 := by
  rcases abs_le.1 h with ⟨h1, h2⟩
  unfold cround
  split_ifs with hx
  · have hl : (0 : ℤ) ≤ ⌊x + 1 / 2⌋ := Int.floor_nonneg.2 (by linarith)
    have hu : ⌊x + 1 / 2⌋ < 256 := Int.floor_lt.2 (by push_cast; linarith)
    rw [abs_le]
    omega
  · have hl : (0 : ℤ) ≤ ⌊-x + 1 / 2⌋ := Int.floor_nonneg.2 (by linarith)
    have hu : ⌊-x + 1 / 2⌋ < 256 := Int.floor_lt.2 (by push_cast; linarith)
    rw [abs_le]
    omega

/-- Rounding keeps magnitudes within a bound that the argument respects
(100 case, JS rounding on reals). -/
theorem round_abs_le_100 {x : ℝ} (h : |x| ≤ 100) : |round x| ≤ 100 := by
  rcases abs_le.1 h with ⟨h1, h2⟩
  rw [round_eq]
  have hu : ⌊x + 1 / 2⌋ < 101 := Int.floor_lt.2 (by push_cast; linarith)
  have hl : (-100 : ℤ) ≤ ⌊x + 1 / 2⌋ := Int.le_floor.2 (by push_cast; linarith)
  rw [abs_le]
  omega

/-- The saturation scale of `moveXY` maps any value bounded by the wheel
maximum into the signed PWM range. -/
theorem BaseBLE.xyScale_mul_le {r m : ℚ} (hr : |r| ≤ m) :
    |r * BaseBLE.xyScale m * 255| ≤ 255 := by
  unfold BaseBLE.xyScale
  split_ifs with h1
  · have hmpos : (0 : ℚ) < m := lt_trans one_pos h1
    have hm1 : m * (1 / m) = 1 := by field_simp
    rw [abs_mul, abs_mul]
    have ha : |(1 : ℚ) / m| = 1 / m := abs_of_nonneg (by positivity)
    have hb : |(255 : ℚ)| = 255 := by norm_num
    rw [ha, hb]
    have h2 : |r| * (1 / m) ≤ m * (1 / m) :=
      mul_le_mul_of_nonneg_right hr (by positivity)
    nlinarith
  · have hm1 : m ≤ 1 := not_lt.1 h1
    rw [abs_mul, abs_mul]
    have hb : |(255 : ℚ)| = 255 := by norm_num
    have ha : |(1 : ℚ)| = 1 := by norm_num
    rw [ha, hb]
    nlinarith [abs_nonneg r]

/-- Every raw `moveXY` wheel magnitude is within `max_required`. -/
theorem BaseBLE.raw_le_maxRequired (vx vy : ℚ) :
    |BaseBLE.rawFL vx vy| ≤ BaseBLE.maxRequired vx vy ∧
    |BaseBLE.rawFR vx vy| ≤ BaseBLE.maxRequired vx vy ∧
    |BaseBLE.rawRL vx vy| ≤ BaseBLE.maxRequired vx vy ∧
    |BaseBLE.rawRR vx vy| ≤ BaseBLE.maxRequired vx vy :=
  ⟨le_trans (le_max_left _ _) (le_max_left _ _),
   le_trans (le_max_right _ _) (le_max_left _ _),
   le_trans (le_max_left _ _) (le_max_right _ _),
   le_trans (le_max_right _ _) (le_max_right _ _)⟩

/-- The documented joystick normalization divisor is at least one. -/
theorem JoyDoc.one_le_maxVal (angle d : ℝ) : 1 ≤ JoyDoc.maxVal angle d :=
  le_max_right _ _

/-- Every raw documented wheel magnitude is within `maxVal`. -/
theorem JoyDoc.raw_le_maxVal (angle d : ℝ) :
    |JoyDoc.rawFL angle d| ≤ JoyDoc.maxVal angle d ∧
    |JoyDoc.rawFR angle d| ≤ JoyDoc.maxVal angle d ∧
    |JoyDoc.rawRL angle d| ≤ JoyDoc.maxVal angle d ∧
    |JoyDoc.rawRR angle d| ≤ JoyDoc.maxVal angle d :=
  ⟨le_trans (le_trans (le_max_left _ _) (le_max_left _ _)) (le_max_left _ _),
   le_trans (le_trans (le_max_right _ _) (le_max_left _ _)) (le_max_left _ _),
   le_trans (le_trans (le_max_left _ _) (le_max_right _ _)) (le_max_left _ _),
   le_trans (le_trans (le_max_right _ _) (le_max_right _ _)) (le_max_left _ _)⟩

/-- The documented joystick scale maps any value bounded by `maxVal` into
[-100, 100]. -/
theorem JoyDoc.jscale_mul_le {r : ℝ} (angle d : ℝ) (hr : |r| ≤ JoyDoc.maxVal angle d) :
    |r * JoyDoc.jscale angle d| ≤ 100 := by
  have hm1 : 1 ≤ JoyDoc.maxVal angle d := JoyDoc.one_le_maxVal angle d
  have hmpos : (0 : ℝ) < JoyDoc.maxVal angle d := by linarith
  unfold JoyDoc.jscale
  rw [abs_mul, abs_of_nonneg (by positivity : (0 : ℝ) ≤ 100 / JoyDoc.maxVal angle d)]
  have h1 : |r| * (100 / JoyDoc.maxVal angle d) ≤
      JoyDoc.maxVal angle d * (100 / JoyDoc.maxVal angle d) :=
    mul_le_mul_of_nonneg_right hr (by positivity)
  have h2 : JoyDoc.maxVal angle d * (100 / JoyDoc.maxVal angle d) = 100 := by
    field_simp
  linarith

/-- Amended claim C3: in both kinematics modes the normalized output
magnitudes never exceed the output range and the scaling is a single
positive factor, so ratios and signs between the four wheels are
preserved; but the two modes differ on when scaling is the identity:
`moveXY` scales by 1 exactly when the unnormalized maximum is at most
1.0, while the documented angle/distance codec scales by
`100 / max(m, 1)`, which is the identity only when the unnormalized
maximum is exactly 100 — sub-maximal inputs are amplified to full range,
not passed through. -/
theorem C3_normalization_amended (vx vy : ℚ) (angle d : ℝ) :
    (|BaseBLE.pwmFL vx vy| ≤ 255 ∧ |BaseBLE.pwmFR vx vy| ≤ 255 ∧
     |BaseBLE.pwmRL vx vy| ≤ 255 ∧ |BaseBLE.pwmRR vx vy| ≤ 255) ∧
    (BaseBLE.xyScale (BaseBLE.maxRequired vx vy) = 1 ↔ BaseBLE.maxRequired vx vy ≤ 1) ∧
    (∃ c : ℚ, 0 < c ∧
      BaseBLE.rawFL vx vy * BaseBLE.xyScale (BaseBLE.maxRequired vx vy) * 255 =
        c * BaseBLE.rawFL vx vy ∧
      BaseBLE.rawFR vx vy * BaseBLE.xyScale (BaseBLE.maxRequired vx vy) * 255 =
        c * BaseBLE.rawFR vx vy ∧
      BaseBLE.rawRL vx vy * BaseBLE.xyScale (BaseBLE.maxRequired vx vy) * 255 =
        c * BaseBLE.rawRL vx vy ∧
      BaseBLE.rawRR vx vy * BaseBLE.xyScale (BaseBLE.maxRequired vx vy) * 255 =
        c * BaseBLE.rawRR vx vy) ∧
    (|(JoyDoc.speeds angle d).1| ≤ 100 ∧ |(JoyDoc.speeds angle d).2.1| ≤ 100 ∧
     |(JoyDoc.speeds angle d).2.2.1| ≤ 100 ∧ |(JoyDoc.speeds angle d).2.2.2| ≤ 100) ∧
    (∃ c : ℝ, 0 < c ∧
      JoyDoc.rawFL angle d * JoyDoc.jscale angle d = c * JoyDoc.rawFL angle d ∧
      JoyDoc.rawFR angle d * JoyDoc.jscale angle d = c * JoyDoc.rawFR angle d ∧
      JoyDoc.rawRL angle d * JoyDoc.jscale angle d = c * JoyDoc.rawRL angle d ∧
      JoyDoc.rawRR angle d * JoyDoc.jscale angle d = c * JoyDoc.rawRR angle d) ∧
    (JoyDoc.jscale angle d = 1 ↔ JoyDoc.maxVal angle d = 100) := by
  have hq := BaseBLE.raw_le_maxRequired vx vy
  have hr := JoyDoc.raw_le_maxVal angle d
  have hm1 : 1 ≤ JoyDoc.maxVal angle d := JoyDoc.one_le_maxVal angle d
  have hmpos : (0 : ℝ) < JoyDoc.maxVal angle d := by linarith
  refine ⟨⟨?_, ?_, ?_, ?_⟩, ?_, ?_, ⟨?_, ?_, ?_, ?_⟩, ?_, ?_⟩
  · exact cround_abs_le (BaseBLE.xyScale_mul_le hq.1)
  · exact cround_abs_le (BaseBLE.xyScale_mul_le hq.2.1)
  · exact cround_abs_le (BaseBLE.xyScale_mul_le hq.2.2.1)
  · exact cround_abs_le (BaseBLE.xyScale_mul_le hq.2.2.2)
  · unfold BaseBLE.xyScale
    split_ifs with h1
    · constructor
      · intro he
        have hmpos : (0 : ℚ) < BaseBLE.maxRequired vx vy := lt_trans one_pos h1
        have : (1 : ℚ) / BaseBLE.maxRequired vx vy < 1 := by
          rw [div_lt_one hmpos]
          exact h1
        linarith [this.trans_eq he.symm, he]
      · intro hle
        linarith
    · exact iff_of_true rfl (not_lt.1 h1)
  · refine ⟨BaseBLE.xyScale (BaseBLE.maxRequired vx vy) * 255, ?_, by ring, by ring, by ring, by ring⟩
    have : 0 < BaseBLE.xyScale (BaseBLE.maxRequired vx vy) := by
      unfold BaseBLE.xyScale
      split_ifs with h1
      · positivity
      · norm_num
    positivity
  · exact round_abs_le_100 (JoyDoc.jscale_mul_le angle d hr.1)
  · exact round_abs_le_100 (JoyDoc.jscale_mul_le angle d hr.2.1)
  · exact round_abs_le_100 (JoyDoc.jscale_mul_le angle d hr.2.2.1)
  · exact round_abs_le_100 (JoyDoc.jscale_mul_le angle d hr.2.2.2)
  · refine ⟨JoyDoc.jscale angle d, ?_, by ring, by ring, by ring, by ring⟩
    unfold JoyDoc.jscale
    positivity
  · unfold JoyDoc.jscale
    rw [div_eq_one_iff_eq (ne_of_gt hmpos)]
    exact eq_comm

/-- The documented joystick angle 45 degrees lands on sin and cos of a
right angle. -/
theorem JoyDoc.jangle_45 : JoyDoc.jangle 45 = Real.pi / 2 := by
  unfold JoyDoc.jangle
  ring

/-- Raw documented wheel speeds at 45 degrees, half deflection. -/
theorem JoyDoc.raw_45_half :
    JoyDoc.rawFL 45 (1 / 2) = 50 ∧ JoyDoc.rawFR 45 (1 / 2) = 0 ∧
    JoyDoc.rawRL 45 (1 / 2) = 0 ∧ JoyDoc.rawRR 45 (1 / 2) = 50 := by
  unfold JoyDoc.rawFL JoyDoc.rawFR JoyDoc.rawRL JoyDoc.rawRR
  rw [JoyDoc.jangle_45, Real.sin_pi_div_two, Real.cos_pi_div_two]
  norm_num

/-- The documented normalization divisor at 45 degrees, half deflection. -/
theorem JoyDoc.maxVal_45_half : JoyDoc.maxVal 45 (1 / 2) = 50 := by
  have h := JoyDoc.raw_45_half
  unfold JoyDoc.maxVal
  rw [h.1, h.2.1, h.2.2.1, h.2.2.2]
  rw [abs_of_nonneg (by norm_num : (0 : ℝ) ≤ 50), abs_zero]
  rw [max_eq_left (by norm_num : (0 : ℝ) ≤ 50), max_eq_right (by norm_num : (0 : ℝ) ≤ 50),
    max_self, max_eq_left (by norm_num : (1 : ℝ) ≤ 50)]

/-- Documented output at 45 degrees, half deflection: the sub-maximal
raw values (50, 0, 0, 50) are amplified to (100, 0, 0, 100). -/
theorem JoyDoc.speeds_45_half : JoyDoc.speeds 45 (1 / 2) = (100, 0, 0, 100) := by
  have h := JoyDoc.raw_45_half
  unfold JoyDoc.speeds JoyDoc.jscale
  rw [JoyDoc.maxVal_45_half, h.1, h.2.1, h.2.2.1, h.2.2.2]
  have h1 : (50 : ℝ) * (100 / 50) = 100 := by norm_num
  have h2 : (0 : ℝ) * (100 / 50) = 0 := by norm_num
  rw [h1, h2]
  norm_num [round_ofNat, round_zero]

/-- Counterexample to claim C3: at angle 45 degrees and distance 0.5 the
unnormalized maximum (50) is well inside the output range, yet the
documented normalization is not the identity — it amplifies the raw
front-left value 50 to the output 100.  So normalization is not "skipped
exactly when the unnormalized max is within 1.0 times the output range"
in the angle/distance mode. -/
theorem C3_counterexample :
    JoyDoc.maxVal 45 (1 / 2) ≤ 100 ∧ JoyDoc.speeds 45 (1 / 2) = (100, 0, 0, 100) ∧
    JoyDoc.rawFL 45 (1 / 2) = 50 := by
  refine ⟨?_, JoyDoc.speeds_45_half, JoyDoc.raw_45_half.1⟩
  rw [JoyDoc.maxVal_45_half]
  norm_num

/-- The documented joystick angle 90 degrees lands on 3π/4. -/
theorem JoyDoc.jangle_90 : JoyDoc.jangle 90 = 3 * Real.pi / 4 := by
  unfold JoyDoc.jangle
  ring

/-- Sine at 3π/4. -/
theorem JoyDoc.sin_3pi4 : Real.sin (3 * Real.pi / 4) = Real.sqrt 2 / 2 := by
  rw [show 3 * Real.pi / 4 = Real.pi - Real.pi / 4 by ring, Real.sin_pi_sub,
    Real.sin_pi_div_four]

/-- Cosine at 3π/4. -/
theorem JoyDoc.cos_3pi4 : Real.cos (3 * Real.pi / 4) = -(Real.sqrt 2 / 2) := by
  rw [show 3 * Real.pi / 4 = Real.pi - Real.pi / 4 by ring, Real.cos_pi_sub,
    Real.cos_pi_div_four]

/-- Raw documented wheel speeds at 90 degrees, full deflection. -/
theorem JoyDoc.raw_90_1 :
    JoyDoc.rawFL 90 1 = 50 * Real.sqrt 2 ∧ JoyDoc.rawFR 90 1 = -(50 * Real.sqrt 2) ∧
    JoyDoc.rawRL 90 1 = -(50 * Real.sqrt 2) ∧ JoyDoc.rawRR 90 1 = 50 * Real.sqrt 2 := by
  unfold JoyDoc.rawFL JoyDoc.rawFR JoyDoc.rawRL JoyDoc.rawRR
  rw [JoyDoc.jangle_90, JoyDoc.sin_3pi4, JoyDoc.cos_3pi4]
  refine ⟨by ring, by ring, by ring, by ring⟩

/-- Unit lower bound for the 90-degree divisor. -/
theorem JoyDoc.one_le_50sqrt2 : (1 : ℝ) ≤ 50 * Real.sqrt 2 := by
  have h1 : (1 : ℝ) ≤ Real.sqrt 2 := by
    rw [show (1 : ℝ) = Real.sqrt 1 from Real.sqrt_one.symm]
    exact Real.sqrt_le_sqrt (by norm_num)
  nlinarith

/-- The documented normalization divisor at 90 degrees, full deflection. -/
theorem JoyDoc.maxVal_90_1 : JoyDoc.maxVal 90 1 = 50 * Real.sqrt 2 := by
  have h := JoyDoc.raw_90_1
  have hpos : (0 : ℝ) ≤ 50 * Real.sqrt 2 := by positivity
  unfold JoyDoc.maxVal
  rw [h.1, h.2.1, h.2.2.1, h.2.2.2]
  simp only [abs_neg]
  rw [abs_of_nonneg hpos]
  rw [max_self, max_self, max_eq_left JoyDoc.one_le_50sqrt2]

/-- Documented output at 90 degrees, full deflection: the raw values
(50√2, -50√2, -50√2, 50√2) normalize to (100, -100, -100, 100). -/
theorem JoyDoc.speeds_90_1 : JoyDoc.speeds 90 1 = (100, -100, -100, 100) := by
  have h := JoyDoc.raw_90_1
  have hne : (50 * Real.sqrt 2 : ℝ) ≠ 0 := by positivity
  unfold JoyDoc.speeds JoyDoc.jscale
  rw [JoyDoc.maxVal_90_1, h.1, h.2.1, h.2.2.1, h.2.2.2]
  have h1 : 50 * Real.sqrt 2 * (100 / (50 * Real.sqrt 2)) = 100 := by
    field_simp
  have h2 : -(50 * Real.sqrt 2) * (100 / (50 * Real.sqrt 2)) = -100 := by
    rw [neg_mul, h1]
  rw [h1, h2]
  have hr1 : round (100 : ℝ) = 100 := by
    rw [show (100 : ℝ) = ((100 : ℤ) : ℝ) by norm_num, round_intCast]
  have hr2 : round (-100 : ℝ) = -100 := by
    rw [show (-100 : ℝ) = ((-100 : ℤ) : ℝ) by norm_num, round_intCast]
  rw [hr1, hr2]

/-- The `moveXY` saturation divisor at (vx, vy) = (1, 0). -/
theorem BaseBLE.maxRequired_1_0 : BaseBLE.maxRequired 1 0 = 1 := by
  unfold BaseBLE.maxRequired BaseBLE.rawFL BaseBLE.rawFR BaseBLE.rawRL BaseBLE.rawRR
  norm_num

/-- `moveXY` PWM outputs at (vx, vy) = (1, 0): full-range lateral drive. -/
theorem BaseBLE.pwm_1_0 :
    BaseBLE.pwmFL 1 0 = 255 ∧ BaseBLE.pwmFR 1 0 = -255 ∧
    BaseBLE.pwmRL 1 0 = -255 ∧ BaseBLE.pwmRR 1 0 = 255 := by
  have hfloor : (⌊(511 : ℚ) / 2⌋ : ℤ) = 255 := by
    rw [Int.floor_eq_iff]
    constructor <;> norm_num
  unfold BaseBLE.pwmFL BaseBLE.pwmFR BaseBLE.pwmRL BaseBLE.pwmRR
  rw [BaseBLE.maxRequired_1_0]
  unfold BaseBLE.xyScale BaseBLE.rawFL BaseBLE.rawFR BaseBLE.rawRL BaseBLE.rawRR cround
  norm_num [hfloor]

/-- Amended claim C7: `DriveVelocity{vx = 1.0, vy = 0.0}` drives the
wheels at the full signed output range with the sign pattern
(+, -, -, +): the `moveXY` PWM outputs are (255, -255, -255, 255) (the
-100..100 wheel pattern (100, -100, -100, 100) scaled to the 255 PWM
range); and the documented angle-mode input 90 degrees, distance 1.0
yields (100, -100, -100, 100) — not (71, 71, -71, -71) as the reference
table says. -/
theorem C7_reference_scenarios :
    (BaseBLE.pwmFL 1 0, BaseBLE.pwmFR 1 0, BaseBLE.pwmRL 1 0, BaseBLE.pwmRR 1 0) =
      (255, -255, -255, 255) ∧
    JoyDoc.speeds 90 1 = (100, -100, -100, 100) := by
  have h := BaseBLE.pwm_1_0
  exact ⟨by rw [h.1, h.2.1, h.2.2.1, h.2.2.2], JoyDoc.speeds_90_1⟩

/-- Counterexample to claim C7: the documented kinematics at angle 90
degrees, distance 1.0 does not produce the claimed wheel speeds
(71, 71, -71, -71) — the code's formula and normalization give
(100, -100, -100, 100). -/
theorem C7_counterexample : JoyDoc.speeds 90 1 ≠ (71, 71, -71, -71) := by
  rw [JoyDoc.speeds_90_1]
  decide

end Claims
